import Mathlib

/-!
Verification of the arkime viewer (src/viewer/viewer.js) against its
natural-language specification.  Each section shallowly embeds one part of
the source: the server-to-server authentication middleware, the cron-query
engine, the hunt engine's checkpointing and failed-session bookkeeping, the
PCAP scrub passes, and the PCAP expiry loop.  Machine integers are modelled
as Nat/Int; Elasticsearch and the filesystem are modelled as explicit inputs.
-/

namespace Arkime

/-! ## HTTP responses (viewer.js:527-530 and Express res.send) -/

/-- Body of an HTTP response: either a plain string (Express `res.send(str)`)
or the JSON envelope `JSON.stringify(\x7bsuccess, text\x7d)` produced by
`molochError` (viewer.js:529). -/
inductive ResponseBody
  | plain (text : String)
  | jsonEnvelope (success : Bool) (text : String)
  deriving DecidableEq

structure HttpResponse where
  status : Nat
  body : ResponseBody
  deriving DecidableEq

/-- viewer.js:527-530.  `this.status(status || 403)` : the 403 default applies
only when the argument is falsy (0); `molochError(200, ...)` really sends 200. -/
def molochError (status : Nat) (text : String) : HttpResponse :=
  { status := if status = 0 then 403 else status
    body := .jsonEnvelope false text }

/-- Express `res.send(string)`: default status 200 and a plain text body. -/
def resSend (text : String) : HttpResponse :=
  { status := 200, body := .plain text }

/-! ## S2S peer-auth middleware (viewer.js:264-290) -/

/-- Outcome of `Db.getUserCache` (external store), as seen by the middleware. -/
inductive UserLookup
  | lookupErr
  | notFound
  | disabled
  | ok
  deriving DecidableEq

/-- Decision taken by the `x-moloch-auth` branch of the auth middleware. -/
inductive S2SOutcome
  | rejectUrl
  | rejectTimestamp
  | rejectUserErr
  | rejectUserMissing
  | rejectUserDisabled
  | next
  deriving DecidableEq

/-- viewer.js:264-290.  `objPath` is the decoded token path after the
base-path normalization of line 266; `isReceive` is the
`/receiveSession` / `/api/sessions/receive` URL test of line 277. -/
def s2sAuth (objPath reqUrl : String) (now date : Int) (isReceive : Bool)
    (ul : UserLookup) : S2SOutcome :=
  if objPath ≠ reqUrl then .rejectUrl                          -- lines 267-270
  else if 120000 < (now - date).natAbs then .rejectTimestamp   -- lines 271-274
  else if isReceive then .next                                 -- lines 276-279
  else match ul with                                           -- lines 281-288
    | .lookupErr => .rejectUserErr
    | .notFound => .rejectUserMissing
    | .disabled => .rejectUserDisabled
    | .ok => .next

/-- What a `res.send` call actually produces: a normal response, or — for
Express 4's deprecated `send(status, body)` overload fed a non-numeric
status — an invalid `res.statusCode` that Node rejects when the header is
written, diverting the request into the router's error path. -/
inductive SentResponse
  | ok (r : HttpResponse)
  | statusCodeError (attemptedStatus : String) (attemptedBody : String)
  deriving DecidableEq

/-- Express 4 `res.send(text)` with a single string argument: a normal
response, default status 200, plain text body. -/
def resSendOne (text : String) : SentResponse := .ok (resSend text)

/-- Express 4 `res.send(a, b)` with two string arguments: since the second
argument is not a number, the deprecated `send(status, body)` overload is
taken — `res.statusCode := a` and `b` becomes the body.  The non-numeric
status code is rejected when the header is written, so the request ends in
the router's error path instead of this response. -/
def resSendTwo (a b : String) : SentResponse := .statusCodeError a b

/-- The response written for each rejecting outcome of the S2S branch.  The
bad-url rejection at viewer.js:269 passes TWO arguments —
`res.send('Unauthorized based on bad url, check logs on ',
Config.hostName())` — and so takes the deprecated overload; the rejections
at lines 273, 282, 283 and 284 are single-argument `res.send` calls.
(`.next` hands the request to the next handler.  The line-283 message text
elides the apostrophe of the source string.) -/
def s2sResponse (hostName userName : String) (o : S2SOutcome) :
    Option SentResponse :=
  match o with
  | .rejectUrl => some (resSendTwo "Unauthorized based on bad url, check logs on " hostName)
  | .rejectTimestamp => some (resSendOne "Unauthorized based on timestamp - check that all moloch viewer machines have accurate clocks")
  | .rejectUserErr => some (resSendOne ("ERROR - x-moloch getUser - user: " ++ userName))
  | .rejectUserMissing => some (resSendOne (userName ++ " doesnt exist"))
  | .rejectUserDisabled => some (resSendOne (userName ++ " not enabled"))
  | .next => none

/-! ## Permission gate (viewer.js:589-607) -/

/-- viewer.js:590-595. -/
def inversePermissions : List String :=
  ["hidePcap", "hideFiles", "hideStats", "disablePcapDownload"]

/-- viewer.js:597-606: scans the required permissions in order and answers
`molochError 403 ...` on the first violated one, `none` (= `next()`) otherwise.
`user` gives the boolean permission flags of `req.user`. -/
def checkPermissions (permissions : List String) (user : String → Bool) :
    Option HttpResponse :=
  match permissions with
  | [] => none
  | p :: rest =>
    if (!user p && !inversePermissions.contains p) ||
        (user p && inversePermissions.contains p) then
      some (molochError 403 "You do not have permission to access this resource")
    else checkPermissions rest user

/-! ## Cron-query engine (viewer.js:5093-5316) -/

/-- 24 hours in seconds, the maximal slice width (viewer.js:5102). -/
def cronMaxSlice : Nat := 24 * 60 * 60

/-- viewer.js:5102: `singleEndTime = Math.min(endTime, cq.lpValue + 24*60*60)`. -/
def singleEndTimeOf (endTime lpValue : Nat) : Nat :=
  min endTime (lpValue + cronMaxSlice)

/-- An Elasticsearch range clause; `gte` is inclusive, `lt` exclusive. -/
structure RangeFilter where
  field : String
  gte : Nat
  lt : Nat
  deriving DecidableEq

/-- Elasticsearch semantics of the range clause on a field value `t`. -/
def RangeFilter.holds (f : RangeFilter) (t : Nat) : Prop :=
  f.gte ≤ t ∧ t < f.lt

/-- An element of `query.query.bool.filter`. -/
inductive ESFilter
  | empty
  | range (r : RangeFilter)
  | expr (e : String)
  deriving DecidableEq

/-- viewer.js:5103: the range clause installed as `filter[0]` for one slice.
The source range is on the `timestamp` field (see the comment at
viewer.js:5089-5092), with `gte: lpValue*1000` and `lt: singleEndTime*1000`. -/
def cronSliceFilter (lpValue endTime : Nat) : RangeFilter :=
  { field := "timestamp"
    gte := lpValue * 1000
    lt := singleEndTimeOf endTime lpValue * 1000 }

/-- viewer.js:5249-5273 build `filter = [\x7b\x7d, <parsed query>, <forced expr>?]`;
viewer.js:5103 then overwrites `filter[0]` with the slice range. -/
def processCronQueryFilters (baseFilters : List ESFilter) (lpValue endTime : Nat) :
    List ESFilter :=
  baseFilters.set 0 (.range (cronSliceFilter lpValue endTime))

/-- One scheduling tick for one cron query, viewer.js:5210 and 5276-5287:
skipped when disabled or `endTime < lpValue` (returns `none`); otherwise the
update document carries `lpValue := singleEndTime` from the processed slice. -/
def cronTick (enabled : Bool) (lpValue endTime : Nat) : Option Nat :=
  if !enabled || decide (endTime < lpValue) then none
  else some (singleEndTimeOf endTime lpValue)

/-- The update document built at viewer.js:5281-5287.  The object literal has
exactly the fields `lpValue`, `lastRun`, `count`; `lastNotifiedCount` is not
among them, so reading it yields `undefined` (`none`). -/
structure CronUpdateDoc where
  lpValue : Nat
  lastRun : Nat
  count : Nat
  lastNotifiedCount : Option Nat := none
  deriving DecidableEq

/-- viewer.js:5281-5287: `count: (queries[qid].count || 0) + count`. -/
def buildCronUpdateDoc (lpValue nowS : Nat) (oldCount : Option Nat) (count : Nat) :
    CronUpdateDoc :=
  { lpValue := lpValue, lastRun := nowS, count := oldCount.getD 0 + count }

/-- viewer.js:5301: `document.doc.lastNotifiedCount ? (document.doc.count -
document.doc.lastNotifiedCount) : document.doc.count` (JS truthiness:
`undefined` and `0` select the second branch). -/
def newMatchCount (doc : CronUpdateDoc) : Nat :=
  match doc.lastNotifiedCount with
  | some (n + 1) => doc.count - (n + 1)
  | _ => doc.count

/-- The alert guard at viewer.js:5299-5300: notifier configured, a non-zero
batch, the stored count changed, and 600 s since `lastNotified` (or never
notified). -/
def cronAlertFires (notifier : Bool) (batchCount : Nat) (oldCount : Option Nat)
    (doc : CronUpdateDoc) (nowS : Nat) (lastNotified : Option Nat) : Bool :=
  notifier && decide (batchCount ≠ 0) && decide (oldCount ≠ some doc.count) &&
    (match lastNotified with
     | none => true
     | some ln => decide (600 ≤ nowS - ln))

/-! ## Hunt engine: checkpointing (viewer.js:1468-1502, 1647-1748) -/

/-- Result of `continueHuntSkipSession`: either the hunt was paused with an
error (`pauseHuntJobWithError`, list unchanged), or processing continues with
the updated `failedSessionIds`. -/
inductive SkipResult
  | paused (failedSessionIds : Option (List String))
  | cont (failedSessionIds : List String)
  deriving DecidableEq

/-- viewer.js:1536-1554.  `none` models an absent (`undefined`) array; a JS
empty array is truthy and takes the `else` branch.  The membership test
models `indexOf(sessionId) < 0` (line 1548). -/
def continueHuntSkipSession (failedSessionIds : Option (List String))
    (sessionId : String) : SkipResult :=
  match failedSessionIds with
  | none => .cont [sessionId]                                  -- line 1538
  | some l =>
    if 10000 < l.length then .paused (some l)                  -- lines 1541-1545
    else if sessionId ∈ l then .cont l                         -- line 1548
    else .cont (l ++ [sessionId])                              -- line 1549

/-- Threads `failedSessionIds` through a sequence of
`continueHuntSkipSession` calls. -/
def runSkips (fs : Option (List String)) : List String → Option (List String)
  | [] => fs
  | sid :: rest =>
    match continueHuntSkipSession fs sid with
    | .paused l => runSkips l rest
    | .cont l => runSkips (some l) rest

/-- `Nodup` lifted to the possibly-absent array. -/
def optNodup : Option (List String) → Prop
  | none => True
  | some l => l.Nodup

/-! ## PCAP scrub (viewer.js:1956-1989) -/

/-- The scrub fill buffers are 5000 bytes long (viewer.js:1958). -/
def bufferSize : Nat := 5000

/-- `Buffer.alloc(5000).fill(v)` as a byte function (viewer.js:1958-1960). -/
def filledBuffer (v : Nat) : Nat → Nat := fun _ => v

/-- `buf.write(str, i)` copies `min(str.length, size - i)` bytes of `data`
to positions `i, i+1, ...` and leaves the rest of `buf` unchanged. -/
def bufWrite (buf : Nat → Nat) (data : List Nat) (size i : Nat) : Nat → Nat :=
  fun j =>
    if i ≤ j ∧ j < i + min data.length (size - i) then data.getD (j - i) 0
    else buf j

/-- The fill loop of viewer.js:1962-1964:
`for (let i = 0; i < 5000;) i += buf.write(str, i)`.  The fuel bounds the
iteration count (each write advances `i` by at least one byte). -/
def fillLoop (data : List Nat) (size : Nat) : Nat → Nat → (Nat → Nat) → (Nat → Nat)
  | 0, _, buf => buf
  | fuel + 1, i, buf =>
    if i < size then
      fillLoop data size fuel (i + min data.length (size - i)) (bufWrite buf data size i)
    else buf

/-- The ASCII bytes of the string written at viewer.js:1961-1964. -/
def hootBytes : List Nat := "Scrubbed! Hoot! ".toList.map Char.toNat

/-- `pcapScrub.scrubbingBuffers[0]` (viewer.js:1959). -/
def scrubbingBuffer0 : Nat → Nat := filledBuffer 0

/-- `pcapScrub.scrubbingBuffers[1]` (viewer.js:1960). -/
def scrubbingBuffer1 : Nat → Nat := filledBuffer 1

/-- `pcapScrub.scrubbingBuffers[2]` (viewer.js:1961-1964). -/
def scrubbingBuffer2 : Nat → Nat :=
  fillLoop hootBytes bufferSize bufferSize 0 (filledBuffer 0)

/-- A decoded pcap record: 16-byte record header plus payload. -/
structure PcapPacket where
  header : List Nat
  payload : List Nat
  deriving DecidableEq

/-- Modelled from the spec: `Pcap.scrubPacket` lives in the repository's
`viewer/pcap.js`, which is not under src/.  Per spec §4.2 it "overwrites
packet payload (and, if `alsoHeader`, the 16-byte record header) in place"
with bytes drawn from the fill buffer. -/
def scrubPacket (pkt : PcapPacket) (fill : Nat → Nat) (alsoHeader : Bool) :
    PcapPacket :=
  { header := if alsoHeader then (List.range pkt.header.length).map fill
      else pkt.header
    payload := (List.range pkt.payload.length).map fill }

/-- The three `pcap.scrubPacket` calls of viewer.js:1976-1978, in source
order, each passing `whatToRemove === 'all'` as the header flag. -/
def pcapScrubCalls (whatToRemove : String) : List ((Nat → Nat) × Bool) :=
  [ (scrubbingBuffer0, whatToRemove == "all")
  , (scrubbingBuffer1, whatToRemove == "all")
  , (scrubbingBuffer2, whatToRemove == "all") ]

/-- `processFile` (viewer.js:1967-1989) scrubs only packets longer than the
16-byte record header (line 1972); shorter packets are skipped with a log. -/
def processFilePasses (whatToRemove : String) (packetLen : Nat) :
    List ((Nat → Nat) × Bool) :=
  if 16 < packetLen then pcapScrubCalls whatToRemove else []

/-- Applies a sequence of scrub passes to a packet. -/
def applyScrubs (pkt : PcapPacket) (calls : List ((Nat → Nat) × Bool)) :
    PcapPacket :=
  calls.foldl (fun p c => scrubPacket p c.1 c.2) pkt

/-! ## PCAP expiry (viewer.js:2089-2144) -/

/-- A document of the `files` index (the `_source` fields requested at
viewer.js:2090 plus the `locked` flag the query filters on). -/
structure PcapFileDoc where
  num : Nat
  node : String
  name : String
  first : Nat
  locked : Bool
  deriving DecidableEq

/-- The files-index query built at viewer.js:2090-2110: `node` among the
device's nodes, `name` under one of the pcap directories (wildcard
`dir + '/*'`, or `dir + '*'` when `dir` already ends in `/`), and
`must_not: \x7b term: \x7b locked: 1 \x7d \x7d`. -/
def expireQueryMatches (nodes : List String) (dirs : List String)
    (f : PcapFileDoc) : Prop :=
  f.node ∈ nodes ∧
  (∃ d ∈ dirs, (if d.endsWith "/" then d else d ++ "/").isPrefixOf f.name) ∧
  f.locked = false

/-- A concrete unlocked file document, used to instantiate the expiry model. -/
def exFile (i : Nat) : PcapFileDoc :=
  { num := i, node := "node1", name := "/pcap/capture-" ++ toString i ++ ".pcap"
    first := i, locked := false }

/-- The `async.forEachSeries` deletion loop of viewer.js:2117-2139.
`freeOf` gives the statVFS free gigabytes for an item's filesystem
(`none` models a thrown stat on a missing file, treated as
`minFreeSpaceG - 1`, lines 2128-2132).  Returns the deleted items in
deletion order and the final `data.hits.total`. -/
def expireLoop (minFreeSpaceG : Int) (freeOf : PcapFileDoc → Option Int) :
    List PcapFileDoc → Nat → List PcapFileDoc × Nat
  | [], total => ([], total)
  | item :: rest, total =>
    if total ≤ 10 then ([], total)                                 -- lines 2118-2120
    else
      let freeG : Int := (freeOf item).getD (minFreeSpaceG - 1)    -- lines 2124-2132
      if freeG < minFreeSpaceG then
        let r := expireLoop minFreeSpaceG freeOf rest (total - 1)  -- lines 2133-2136
        (item :: r.1, r.2)
      else ([], total)                                             -- lines 2137-2138

/-- `expireDevice` (viewer.js:2089-2144), success path of the files search:
no deletion at all when at most 10 files match (line 2114), otherwise the
deletion loop over the (oldest-first) hits. -/
def expireDevice (minFreeSpaceG : Int) (freeOf : PcapFileDoc → Option Int)
    (hits : List PcapFileDoc) (total : Nat) : List PcapFileDoc × Nat :=
  if total ≤ 10 then ([], total)
  else expireLoop minFreeSpaceG freeOf hits total

/-! ## Theorems -/

/-- Claim C2: a request carrying an `x-moloch-auth` token is passed on to a
handler only if the decoded token path (base-path normalized) equals the
request URL and the clock skew is at most 120000 ms; a token violating either
condition is rejected, so a token replayed more than 120 s later is never
accepted. -/
theorem c2_peer_auth_skew (objPath reqUrl : String) (now date : Int)
    (isReceive : Bool) (ul : UserLookup) :
    (s2sAuth objPath reqUrl now date isReceive ul = .next →
      objPath = reqUrl ∧ (now - date).natAbs ≤ 120000) ∧
    (objPath ≠ reqUrl →
      s2sAuth objPath reqUrl now date isReceive ul = .rejectUrl) ∧
    (objPath = reqUrl → 120000 < (now - date).natAbs →
      s2sAuth objPath reqUrl now date isReceive ul = .rejectTimestamp) ∧
    (120000 < now - date →
      s2sAuth objPath reqUrl now date isReceive ul ≠ .next) := by
  have key : s2sAuth objPath reqUrl now date isReceive ul = .next →
      objPath = reqUrl ∧ (now - date).natAbs ≤ 120000 := by
    intro h
    unfold s2sAuth at h
    by_cases h1 : objPath ≠ reqUrl
    · rw [if_pos h1] at h
      exact absurd h (by decide)
    · push_neg at h1
      rw [if_neg (not_not_intro h1)] at h
      by_cases h2 : 120000 < (now - date).natAbs
      · rw [if_pos h2] at h
        exact absurd h (by decide)
      · exact ⟨h1, by omega⟩
  refine ⟨key, ?_, ?_, ?_⟩
  · intro h1
    unfold s2sAuth
    rw [if_pos h1]
  · intro h1 h2
    unfold s2sAuth
    rw [if_neg (not_not_intro h1), if_pos h2]
  · intro hd h
    rcases key h with ⟨-, habs⟩
    omega

theorem c2_peer_auth_skew_witness :
    s2sAuth "/a" "/b" 0 0 false .ok = .rejectUrl :=
  (c2_peer_auth_skew "/a" "/b" 0 0 false .ok).2.1 (by decide)

/-- Claim C3, counterexample: the first bool filter of a cron-query slice is
a range on the `timestamp` field, not on `lastPacket` as the claim states
(viewer.js:5103, and the comment at viewer.js:5089-5092). -/
theorem c3_counterexample :
    (processCronQueryFilters [.empty, .expr "port == 80"] 1000 100000).head? =
      some (.range (cronSliceFilter 1000 100000)) ∧
    (cronSliceFilter 1000 100000).field = "timestamp" ∧
    (cronSliceFilter 1000 100000).field ≠ "lastPacket" := by
  decide

/-- Claim C3, amended: the slice end is `min(endTime, lpValue + 86400)` and
the scroll query's first bool filter is a range on the `timestamp` field with
lower bound `lpValue*1000` inclusive and upper bound `singleEnd*1000`
exclusive. -/
theorem c3_amended_slice_window (lpValue endTime : Nat) (base : List ESFilter)
    (hb : base ≠ []) :
    (processCronQueryFilters base lpValue endTime).head? =
      some (.range { field := "timestamp", gte := lpValue * 1000,
                     lt := min endTime (lpValue + 86400) * 1000 }) ∧
    singleEndTimeOf endTime lpValue = min endTime (lpValue + 86400) ∧
    ∀ t, (cronSliceFilter lpValue endTime).holds t ↔
      lpValue * 1000 ≤ t ∧ t < min endTime (lpValue + 86400) * 1000 := by
  refine ⟨?_, ?_, ?_⟩
  · cases base with
    | nil => exact absurd rfl hb
    | cons a l =>
      simp [processCronQueryFilters, cronSliceFilter, singleEndTimeOf, cronMaxSlice]
  · simp [singleEndTimeOf, cronMaxSlice]
  · intro t
    simp [RangeFilter.holds, cronSliceFilter, singleEndTimeOf, cronMaxSlice]

theorem c3_amended_slice_window_witness :
    (processCronQueryFilters [.empty] 50 100).head? =
      some (.range { field := "timestamp", gte := 50 * 1000,
                     lt := min 100 (50 + 86400) * 1000 }) ∧
    singleEndTimeOf 100 50 = min 100 (50 + 86400) ∧
    ∀ t, (cronSliceFilter 50 100).holds t ↔
      50 * 1000 ≤ t ∧ t < min 100 (50 + 86400) * 1000 :=
  c3_amended_slice_window 50 100 [.empty] (by decide)

/-- Claim C4, counterexample: an enabled query with `lpValue = endTime` is
not skipped (the skip test at viewer.js:5210 is `endTime < lpValue`), and the
tick then writes back `lpValue` unchanged: the new low-watermark is not
strictly greater than the old one. -/
theorem c4_counterexample :
    cronTick true 1000 1000 = some 1000 ∧ ¬ (1000 : Nat) < 1000 := by
  decide

/-- Claim C4, amended: for every enabled cron query the tick runs unless
`endTime < lpValue`; after the update the new `lpValue` is at least the old
one, at most `endTime = now - cronDelay`, and strictly greater whenever
`lpValue < endTime` (equality occurs exactly at `lpValue = endTime`). -/
theorem c4_amended_window_monotone (enabled : Bool) (lpValue endTime n : Nat)
    (h : cronTick enabled lpValue endTime = some n) :
    lpValue ≤ n ∧ n ≤ endTime ∧ (lpValue < endTime → lpValue < n) := by
  unfold cronTick at h
  split at h
  · cases h
  · injection h with h'
    subst h'
    rename_i hcond
    simp at hcond
    unfold singleEndTimeOf cronMaxSlice
    omega

theorem c4_amended_window_monotone_witness :
    (5 : Nat) ≤ 100 ∧ (100 : Nat) ≤ 100 ∧ ((5 : Nat) < 100 → (5 : Nat) < 100) :=
  c4_amended_window_monotone true 5 100 100 (by decide)

/-- Claim C5 (code bug): a query whose stored `lastNotifiedCount` is 5, with
previous count 5 and 3 new matches (updated total 8), fires an alert — yet
`newMatchCount` is computed from `document.doc.lastNotifiedCount`
(viewer.js:5301), a field never present on the freshly built update
document, so the alert reports the full total 8 instead of 8 - 5 = 3. -/
theorem c5_code_divergence :
    cronAlertFires true 3 (some 5) (buildCronUpdateDoc 2000 999999 (some 5) 3)
        999999 (some 1) = true ∧
    (buildCronUpdateDoc 2000 999999 (some 5) 3).count = 8 ∧
    (buildCronUpdateDoc 2000 999999 (some 5) 3).lastNotifiedCount = none ∧
    newMatchCount (buildCronUpdateDoc 2000 999999 (some 5) 3) = 8 ∧
    newMatchCount (buildCronUpdateDoc 2000 999999 (some 5) 3) ≠ 8 - 5 := by
  decide

/-- Claim C6: a hunt session whose peer call failed is recorded in
`failedSessionIds` (created as a singleton when absent, appended otherwise),
and an addition attempted while the list already holds more than 10000
entries pauses the hunt instead of growing the list. -/
theorem c6_failed_session_tracking (fs : Option (List String)) (sid : String) :
    (fs = none → continueHuntSkipSession fs sid = .cont [sid]) ∧
    (∀ l, fs = some l → l.length ≤ 10000 →
      ∃ l2, continueHuntSkipSession fs sid = .cont l2 ∧ sid ∈ l2 ∧
        ∀ x ∈ l, x ∈ l2) ∧
    (∀ l, fs = some l → 10000 < l.length →
      continueHuntSkipSession fs sid = .paused (some l)) := by
  refine ⟨?_, ?_, ?_⟩
  · intro h
    subst h
    rfl
  · intro l hl hlen
    subst hl
    simp only [continueHuntSkipSession]
    rw [if_neg (by omega)]
    by_cases hm : sid ∈ l
    · rw [if_pos hm]
      exact ⟨l, rfl, hm, fun x hx => hx⟩
    · rw [if_neg hm]
      exact ⟨l ++ [sid], rfl, by simp, fun x hx => by simp [hx]⟩
  · intro l hl hlen
    subst hl
    simp only [continueHuntSkipSession]
    rw [if_pos hlen]

theorem c6_failed_session_tracking_witness :
    ∃ l2, continueHuntSkipSession (some ["x"]) "y" = .cont l2 ∧ "y" ∈ l2 ∧
      ∀ x ∈ ["x"], x ∈ l2 :=
  (c6_failed_session_tracking (some ["x"]) "y").2.1 ["x"] rfl (by decide)

/-- A `cont` result of `continueHuntSkipSession` keeps the list duplicate
free: the push at viewer.js:1549 is guarded by the membership test of
line 1548, and the creation at line 1538 is a singleton. -/
theorem skipCont_nodup (fs : Option (List String)) (sid : String)
    (l : List String) (h : optNodup fs)
    (he : continueHuntSkipSession fs sid = .cont l) : l.Nodup := by
  cases fs with
  | none =>
    simp only [continueHuntSkipSession] at he
    injection he with h1
    subst h1
    exact List.nodup_singleton sid
  | some l0 =>
    simp only [continueHuntSkipSession] at he
    split at he
    · cases he
    · split at he
      · injection he with h1
        subst h1
        exact h
      · rename_i hnotmem
        injection he with h1
        subst h1
        refine List.Nodup.append h (List.nodup_singleton sid) ?_
        intro a ha hb
        simp at hb
        subst hb
        exact hnotmem ha

/-- A `paused` result of `continueHuntSkipSession` leaves the list as it
was (viewer.js:1541-1545). -/
theorem skipPaused_eq (fs : Option (List String)) (sid : String)
    (l : Option (List String))
    (he : continueHuntSkipSession fs sid = .paused l) : l = fs := by
  cases fs with
  | none =>
    simp only [continueHuntSkipSession] at he
    cases he
  | some l0 =>
    simp only [continueHuntSkipSession] at he
    split at he
    · injection he with h1
      subst h1
      rfl
    · split at he <;> cases he

/-- Claim C10: after any sequence of `continueHuntSkipSession` calls starting
from an absent or duplicate-free `failedSessionIds`, the list's elements are
pairwise distinct. -/
theorem c10_failed_sessions_nodup (fs : Option (List String))
    (sids : List String) (h : optNodup fs) : optNodup (runSkips fs sids) := by
  induction sids generalizing fs with
  | nil => exact h
  | cons sid rest ih =>
    simp only [runSkips]
    cases hres : continueHuntSkipSession fs sid with
    | paused l =>
      exact ih l (by rw [skipPaused_eq fs sid l hres]; exact h)
    | cont l =>
      exact ih (some l) (skipCont_nodup fs sid l h hres)

theorem c10_failed_sessions_nodup_witness :
    optNodup (runSkips (some ["a"]) ["a", "b", "c"]) :=
  c10_failed_sessions_nodup (some ["a"]) ["a", "b", "c"] (by simp [optNodup])

/-- Claim C9, counterexample: the timestamp-skew rejection of the S2S auth
branch is written with single-argument `res.send` (viewer.js:273) — HTTP
status 200 and a plain-text body — not the claimed 403
`\x7bsuccess:false, text\x7d` envelope. -/
theorem c9_counterexample :
    s2sResponse "host1" "user1" (s2sAuth "/sessions" "/sessions" 130000 0 false .ok) =
      some (.ok
        { status := 200
          body := .plain "Unauthorized based on timestamp - check that all moloch viewer machines have accurate clocks" }) ∧
    (200 : Nat) ≠ 403 := by
  decide

/-- Claim C9, amended: permission denials (`checkPermissions`) answer 403
with the `\x7bsuccess:false, text\x7d` JSON envelope; the S2S middleware's
timestamp-skew, user-lookup-error, unknown-user and disabled-user rejections
are single-argument `res.send` calls — HTTP status 200 and a plain-text
body; and the bad-url rejection (viewer.js:269) passes two strings to
`res.send`, taking the deprecated `send(status, body)` overload whose
non-numeric status code makes the request end in the router's error path —
in no case the claimed 403 JSON envelope. -/
theorem c9_amended_auth_responses :
    (∀ (perms : List String) (user : String → Bool) (r : HttpResponse),
      checkPermissions perms user = some r →
      r.status = 403 ∧ ∃ t, r.body = .jsonEnvelope false t) ∧
    (∀ (hostName userName : String) (o : S2SOutcome) (sr : SentResponse),
      o ≠ .rejectUrl → s2sResponse hostName userName o = some sr →
      ∃ r t, sr = .ok r ∧ r.status = 200 ∧ r.body = .plain t) ∧
    (∀ hostName userName : String,
      s2sResponse hostName userName .rejectUrl =
        some (.statusCodeError "Unauthorized based on bad url, check logs on "
          hostName)) := by
  refine ⟨?_, ?_, ?_⟩
  · intro perms user r h
    induction perms with
    | nil => exact absurd h (by simp [checkPermissions])
    | cons p rest ih =>
      unfold checkPermissions at h
      split at h
      · injection h with h1
        subst h1
        exact ⟨rfl, _, rfl⟩
      · exact ih h
  · intro hostName userName o sr hne h
    cases o
    case rejectUrl => exact absurd rfl hne
    case next => simp [s2sResponse] at h
    all_goals
      simp only [s2sResponse, resSendOne] at h
      cases h
      exact ⟨_, _, rfl, rfl, rfl⟩
  · intro hostName userName
    rfl

theorem c9_amended_auth_responses_witness :
    (molochError 403 "You do not have permission to access this resource").status = 403 ∧
    ∃ t, (molochError 403 "You do not have permission to access this resource").body =
      .jsonEnvelope false t :=
  c9_amended_auth_responses.1 ["removeEnabled"] (fun _ => false)
    (molochError 403 "You do not have permission to access this resource") rfl

/-- The expire loop deletes a prefix of the hits, decrements the running
total once per deletion, and never drives the total below 10 once it is at
least 10 (the per-item stop test at viewer.js:2118). -/
theorem expireLoop_spec (minFree : Int) (freeOf : PcapFileDoc → Option Int)
    (hits : List PcapFileDoc) :
    ∀ total : Nat,
      (∃ n, (expireLoop minFree freeOf hits total).1 = hits.take n) ∧
      (expireLoop minFree freeOf hits total).2 =
        total - (expireLoop minFree freeOf hits total).1.length ∧
      (10 ≤ total → 10 ≤ (expireLoop minFree freeOf hits total).2) := by
  induction hits with
  | nil =>
    intro total
    exact ⟨⟨0, rfl⟩, by simp [expireLoop], fun h => by simpa [expireLoop]⟩
  | cons item rest ih =>
    intro total
    by_cases h1 : total ≤ 10
    · refine ⟨⟨0, ?_⟩, ?_, ?_⟩ <;> simp [expireLoop, h1]
    · by_cases h2 : ((freeOf item).getD (minFree - 1)) < minFree
      · obtain ⟨⟨n, hn⟩, hlen, hfloor⟩ := ih (total - 1)
        refine ⟨⟨n + 1, ?_⟩, ?_, ?_⟩
        · simp [expireLoop, h1, h2, List.take_succ_cons, hn]
        · simp only [expireLoop, if_neg h1, if_pos h2]
          simp only [List.length_cons]
          omega
        · intro h10
          simp only [expireLoop, if_neg h1, if_pos h2]
          exact hfloor (by omega)
      · refine ⟨⟨0, ?_⟩, ?_, ?_⟩ <;> simp [expireLoop, h1, h2]

/-- Claim C8, counterexample: with 11 matching unlocked files and free space
below the target throughout, `expireDevice` deletes a file and the matching
count drops to exactly 10 — deletion does not stop strictly before the count
reaches 10. -/
theorem c8_counterexample :
    (expireDevice 5 (fun _ => some 0) ((List.range 11).map exFile) 11).1 =
      [exFile 0] ∧
    (expireDevice 5 (fun _ => some 0) ((List.range 11).map exFile) 11).2 = 10 := by
  decide

/-- Claim C8, amended: `expireDevice` never deletes a file whose index record
is locked (the files query excludes `locked=1`), deletes nothing when at most
10 files match, never reduces the matching-file count below 10 (it may reach
exactly 10), and deletes a prefix of the oldest-first hit list. -/
theorem c8_amended_expiry_safety (minFree : Int)
    (freeOf : PcapFileDoc → Option Int) (hits : List PcapFileDoc) (total : Nat)
    (hq : ∀ f ∈ hits, f.locked = false) :
    (∀ f ∈ (expireDevice minFree freeOf hits total).1,
      f.locked = false ∧ f ∈ hits) ∧
    (total ≤ 10 → (expireDevice minFree freeOf hits total).1 = []) ∧
    (10 < total → 10 ≤ (expireDevice minFree freeOf hits total).2) ∧
    (∃ n, (expireDevice minFree freeOf hits total).1 = hits.take n) := by
  unfold expireDevice
  by_cases h1 : total ≤ 10
  · rw [if_pos h1]
    exact ⟨by simp, fun _ => rfl, fun h => absurd h (by omega), 0, rfl⟩
  · rw [if_neg h1]
    obtain ⟨⟨n, hn⟩, hlen, hfloor⟩ := expireLoop_spec minFree freeOf hits total
    refine ⟨?_, fun h => absurd h h1, fun _ => hfloor (by omega), n, hn⟩
    intro f hf
    rw [hn] at hf
    have hmem : f ∈ hits := List.take_subset n hits hf
    exact ⟨hq f hmem, hmem⟩

theorem c8_amended_expiry_safety_witness :
    (∀ f ∈ (expireDevice 3 (fun _ => none) [exFile 1] 5).1,
      f.locked = false ∧ f ∈ [exFile 1]) ∧
    ((5 : Nat) ≤ 10 → (expireDevice 3 (fun _ => none) [exFile 1] 5).1 = []) ∧
    ((10 : Nat) < 5 → 10 ≤ (expireDevice 3 (fun _ => none) [exFile 1] 5).2) ∧
    (∃ n, (expireDevice 3 (fun _ => none) [exFile 1] 5).1 = [exFile 1].take n) :=
  c8_amended_expiry_safety 3 (fun _ => none) [exFile 1] 5 (by simp [exFile])

/-- Once the write offset has reached the end of the buffer the fill loop
stops. -/
theorem fillLoop_of_ge (data : List Nat) (size fuel i : Nat) (buf : Nat → Nat)
    (h : size ≤ i) : fillLoop data size fuel i buf = buf := by
  cases fuel with
  | zero => rfl
  | succ fuel =>
    simp only [fillLoop]
    rw [if_neg (by omega)]

/-- The fill loop writes the 16-byte pattern repeatedly: if writes start at a
multiple of 16 and the bytes below the offset already follow the pattern,
then after the loop every byte below `size` follows the pattern. -/
theorem fillLoop_pattern (data : List Nat) (hd : data.length = 16) (size : Nat) :
    ∀ (fuel i : Nat) (buf : Nat → Nat), 16 ∣ i → size ≤ i + fuel →
      (∀ j, j < i → buf j = data.getD (j % 16) 0) →
      ∀ j, j < size → fillLoop data size fuel i buf j = data.getD (j % 16) 0 := by
  intro fuel
  induction fuel with
  | zero =>
    intro i buf hdvd hfuel hbelow j hj
    exact hbelow j (by omega)
  | succ fuel ih =>
    intro i buf hdvd hfuel hbelow j hj
    simp only [fillLoop]
    by_cases hi : i < size
    · rw [if_pos hi]
      have hbuf2 : ∀ j2, j2 < i + min data.length (size - i) →
          bufWrite buf data size i j2 = data.getD (j2 % 16) 0 := by
        intro j2 hj2
        unfold bufWrite
        by_cases hrange : i ≤ j2 ∧ j2 < i + min data.length (size - i)
        · rw [if_pos hrange]
          obtain ⟨k, hk⟩ := hdvd
          obtain ⟨hr1, hr2⟩ := hrange
          rw [hd] at hr2
          have hmod : j2 % 16 = j2 - i := by omega
          rw [hmod]
        · rw [if_neg hrange]
          rw [hd] at hj2 hrange
          exact hbelow j2 (by omega)
      by_cases hend : i + 16 ≤ size
      · have hmin16 : min data.length (size - i) = 16 := by
          rw [hd]
          omega
        rw [hmin16]
        rw [hmin16] at hbuf2
        obtain ⟨k, hk⟩ := hdvd
        exact ih (i + 16) (bufWrite buf data size i) ⟨k + 1, by omega⟩
          (by omega) hbuf2 j hj
      · have hmin2 : min data.length (size - i) = size - i := by
          rw [hd]
          omega
        rw [hmin2]
        rw [fillLoop_of_ge data size fuel (i + (size - i))
          (bufWrite buf data size i) (by omega)]
        have hb := hbuf2 j
        rw [hmin2] at hb
        exact hb (by omega)
    · rw [if_neg hi]
      exact hbelow j (by omega)

/-- The third scrubbing buffer carries the ASCII string "Scrubbed! Hoot! "
repeated across all 5000 bytes (the final write is truncated to 8 bytes). -/
theorem scrubbingBuffer2_pattern :
    ∀ j, j < bufferSize → scrubbingBuffer2 j = hootBytes.getD (j % 16) 0 :=
  fillLoop_pattern hootBytes (by decide) bufferSize bufferSize 0
    (filledBuffer 0) ⟨0, rfl⟩ (by decide) (fun j hj => absurd hj (by omega))

/-- Claim C7: scrubbing a packet longer than the 16-byte record header
applies exactly three overwrite passes, in order with the 0x00 buffer, the
0x01 buffer and the "Scrubbed! Hoot! "-repeated buffer, each pass passing
`whatToRemove === 'all'` as its header flag — so the 16-byte record header is
overwritten if and only if `whatToRemove` is `all`. -/
theorem c7_scrub_passes (whatToRemove : String) (packetLen : Nat)
    (hlen : 16 < packetLen) (pkt : PcapPacket) (hh : pkt.header.length = 16) :
    (processFilePasses whatToRemove packetLen).length = 3 ∧
    processFilePasses whatToRemove packetLen =
      [ (scrubbingBuffer0, whatToRemove == "all")
      , (scrubbingBuffer1, whatToRemove == "all")
      , (scrubbingBuffer2, whatToRemove == "all") ] ∧
    (∀ j, scrubbingBuffer0 j = 0) ∧
    (∀ j, scrubbingBuffer1 j = 1) ∧
    (∀ j, j < bufferSize → scrubbingBuffer2 j = hootBytes.getD (j % 16) 0) ∧
    (applyScrubs pkt (processFilePasses whatToRemove packetLen)).header =
      (if whatToRemove == "all" then (List.range 16).map scrubbingBuffer2
       else pkt.header) := by
  have hp : processFilePasses whatToRemove packetLen =
      pcapScrubCalls whatToRemove := by
    unfold processFilePasses
    rw [if_pos hlen]
  refine ⟨by rw [hp]; rfl, by rw [hp]; rfl, fun j => rfl, fun j => rfl,
    scrubbingBuffer2_pattern, ?_⟩
  rw [hp]
  rcases Bool.eq_false_or_eq_true (whatToRemove == "all") with hall | hall <;>
    simp [pcapScrubCalls, applyScrubs, scrubPacket, hall, hh]

theorem c7_scrub_passes_witness :
    (processFilePasses "pcap" 20).length = 3 ∧
    processFilePasses "pcap" 20 =
      [ (scrubbingBuffer0, "pcap" == "all")
      , (scrubbingBuffer1, "pcap" == "all")
      , (scrubbingBuffer2, "pcap" == "all") ] ∧
    (∀ j, scrubbingBuffer0 j = 0) ∧
    (∀ j, scrubbingBuffer1 j = 1) ∧
    (∀ j, j < bufferSize → scrubbingBuffer2 j = hootBytes.getD (j % 16) 0) ∧
    (applyScrubs ⟨List.replicate 16 7, [1, 2, 3]⟩
        (processFilePasses "pcap" 20)).header =
      (if "pcap" == "all" then (List.range 16).map scrubbingBuffer2
       else (⟨List.replicate 16 7, [1, 2, 3]⟩ : PcapPacket).header) :=
  c7_scrub_passes "pcap" 20 (by decide) ⟨List.replicate 16 7, [1, 2, 3]⟩
    (by decide)

end Arkime
